import Mathlib

/-!
Verification of the PB7200P80 BMS AFE Arduino driver.

The driver (src/PB7200P80.cpp together with its header) is embedded
shallowly: device registers are a map from 8-bit addresses to byte values,
the driver cache is an explicit record, C float arithmetic is modelled with
exact rationals, and each bus transaction carries an explicit success flag
so that transport failures can be quantified over.
-/

namespace PB7200

/-! Register map constants, from the header. -/

def PB7200_REG_STATUS : Nat := 0x01
def PB7200_REG_FAULT_STATUS : Nat := 0x02
def PB7200_REG_CELL_VOLTAGE_BASE : Nat := 0x10
def PB7200_REG_TEMP_BASE : Nat := 0x30
def PB7200_REG_CURRENT_H : Nat := 0x40
def PB7200_REG_BALANCE_CTRL1 : Nat := 0x50
def PB7200_REG_BALANCE_CTRL2 : Nat := 0x51
def PB7200_REG_BALANCE_CTRL3 : Nat := 0x52
def PB7200_REG_CONFIG_OVP : Nat := 0x60
def PB7200_REG_CONFIG_UVP : Nat := 0x61
def PB7200_REG_CONFIG_OCP : Nat := 0x62
def PB7200_REG_CONFIG_OTP : Nat := 0x63
def PB7200_REG_CONFIG_UTP : Nat := 0x64
def PB7200_REG_CONTROL : Nat := 0x70
def PB7200_REG_SHUTDOWN : Nat := 0x72

def PB7200_MAX_CELLS : Nat := 20
def PB7200_MAX_TEMPS : Nat := 8

/-- Fault / status bit masks from the header (bit positions 0..7). -/
def PB7200_STATUS_OVP : Nat := 1
def PB7200_STATUS_UVP : Nat := 2

/-! Unit-conversion LSB constants (C doubles 0.001, 0.01, 0.1 modelled as
exact rationals). -/

def PB7200_VOLTAGE_LSB : ℚ := 1 / 1000
def PB7200_CURRENT_LSB : ℚ := 1 / 100
def PB7200_TEMP_LSB : ℚ := 1 / 10

/-- Truncation toward zero of a rational, the effect of a C cast from a
floating value to an integer type (Int division in Lean truncates toward
zero). -/
def ratTrunc (q : ℚ) : Int := q.num / (q.den : Int)

/-- Reduction of an integer to the unsigned 16-bit value with the same
low 16 bits, the effect of a C cast to uint16_t. -/
def toUInt16 (i : Int) : Nat := (i % 65536).toNat

/-- Reduction of an integer to the signed 16-bit value with the same
low 16 bits, the effect of a C cast to int16_t. -/
def toInt16 (i : Int) : Int := (i + 32768) % 65536 - 32768

/-- Big-endian composition of two bytes: (msb << 8) | lsb in the C source. -/
def word (msb lsb : Nat) : Nat := msb * 256 + lsb

/-- Interpretation of a 16-bit word as a two's-complement signed value,
the effect of assigning (data[0] << 8) | data[1] to an int16_t. -/
def sext16 (w : Nat) : Int := if w < 32768 then (w : Int) else (w : Int) - 65536

/-! The six conversion helpers of PB7200P80.cpp. -/

def voltageToRaw (voltage : ℚ) : Nat := toUInt16 (ratTrunc (voltage / PB7200_VOLTAGE_LSB))

def rawToVoltage (raw : Nat) : ℚ := (raw : ℚ) * PB7200_VOLTAGE_LSB

def currentToRaw (current : ℚ) : Int := toInt16 (ratTrunc (current / PB7200_CURRENT_LSB))

def rawToCurrent (raw : Int) : ℚ := (raw : ℚ) * PB7200_CURRENT_LSB

def tempToRaw (temp : ℚ) : Int := toInt16 (ratTrunc (temp / PB7200_TEMP_LSB))

def rawToTemp (raw : Int) : ℚ := (raw : ℚ) * PB7200_TEMP_LSB

/-! Basic facts about the conversions. -/

theorem ratTrunc_natCast (n : Nat) : ratTrunc (n : ℚ) = n := by
  simp [ratTrunc, Rat.num_natCast, Rat.den_natCast]

theorem ratTrunc_intCast (n : Int) : ratTrunc (n : ℚ) = n := by
  simp [ratTrunc, Rat.num_intCast, Rat.den_intCast]

theorem voltage_roundtrip (raw : Nat) (h : raw < 65536) :
    voltageToRaw (rawToVoltage raw) = raw := by
  have hlsb : (PB7200_VOLTAGE_LSB : ℚ) ≠ 0 := by norm_num [PB7200_VOLTAGE_LSB]
  have hdiv : rawToVoltage raw / PB7200_VOLTAGE_LSB = (raw : ℚ) := by
    rw [rawToVoltage, mul_div_assoc, div_self hlsb, mul_one]
  rw [voltageToRaw, hdiv, ratTrunc_natCast, toUInt16]
  rw [Int.emod_eq_of_lt (by positivity) (by exact_mod_cast h)]
  simp

theorem toInt16_eq_of_range (i : Int) (h1 : -32768 ≤ i) (h2 : i < 32768) :
    toInt16 i = i := by
  rw [toInt16, Int.emod_eq_of_lt (by omega) (by omega)]
  omega

theorem current_roundtrip (raw : Int) (h1 : -32768 ≤ raw) (h2 : raw < 32768) :
    currentToRaw (rawToCurrent raw) = raw := by
  have hlsb : (PB7200_CURRENT_LSB : ℚ) ≠ 0 := by norm_num [PB7200_CURRENT_LSB]
  have hdiv : rawToCurrent raw / PB7200_CURRENT_LSB = (raw : ℚ) := by
    rw [rawToCurrent, mul_div_assoc, div_self hlsb, mul_one]
  rw [currentToRaw, hdiv, ratTrunc_intCast, toInt16_eq_of_range raw h1 h2]

theorem temp_roundtrip (raw : Int) (h1 : -32768 ≤ raw) (h2 : raw < 32768) :
    tempToRaw (rawToTemp raw) = raw := by
  have hlsb : (PB7200_TEMP_LSB : ℚ) ≠ 0 := by norm_num [PB7200_TEMP_LSB]
  have hdiv : rawToTemp raw / PB7200_TEMP_LSB = (raw : ℚ) := by
    rw [rawToTemp, mul_div_assoc, div_self hlsb, mul_one]
  rw [tempToRaw, hdiv, ratTrunc_intCast, toInt16_eq_of_range raw h1 h2]

theorem word_lt (msb lsb : Nat) (h1 : msb < 256) (h2 : lsb < 256) :
    word msb lsb < 65536 := by
  unfold word; omega

theorem sext16_range (w : Nat) (h : w < 65536) :
    -32768 ≤ sext16 w ∧ sext16 w < 32768 := by
  unfold sext16
  split <;> omega

/-! Device registers and bus transactions.

The device is a map from register addresses to stored bytes.  A read of a
register returns the byte last written there (the assumption named in the
spec for RAM-like configuration registers); a burst read of length n starting
at addr returns the bytes at addr, addr+1, ..., addr+n-1 (register
auto-increment).  Every bus transaction in the C driver can fail, so each
modelled operation takes one Bool per constituent transaction and also
records the sequence of transactions it attempted. -/

def Regs : Type := Nat → Nat

/-- A read of register addr returns a byte (Wire.read returns one byte). -/
def readByte (regs : Regs) (addr : Nat) : Nat := regs addr % 256

/-- A write stores the low 8 bits of the value (the driver passes uint8_t). -/
def writeByte (regs : Regs) (addr value : Nat) : Regs :=
  fun a => if a = addr then value % 256 else regs a

/-- One attempted bus transaction, as issued by the private communication
methods writeRegister / readRegister / readRegisters. -/
inductive Transaction : Type where
  | readReg (addr : Nat)
  | readBurst (addr len : Nat)
  | writeReg (addr value : Nat)
deriving DecidableEq, Repr

/-! Driver state: the data cache of the PB7200P80 class.  The hardware
configuration fields are constant after construction and the temp-sensor
count is the fixed constant 8, so only the mutable cache is carried.
The advisory _lastUpdate timestamp is outside the model. -/

structure DriverState : Type where
  cellCount : Nat
  cellVoltages : List ℚ
  temperatures : List ℚ
  current : ℚ
  status : Nat
  faultStatus : Nat
deriving DecidableEq, Repr

/-- The constructor sets _tempSensorCount = 8 and nothing reassigns it. -/
def tempSensorCount : Nat := 8

/-- Result of a driver operation: returned value, driver cache afterwards,
and the bus transactions attempted (failed ones included). -/
structure OpResult (α : Type) : Type where
  ret : α
  state : DriverState
  trace : List Transaction
deriving DecidableEq, Repr

/-- isValidCellIndex: index < _cellCount. -/
def isValidCellIndex (st : DriverState) (index : Nat) : Bool := index < st.cellCount

/-- Overwrite cache slots start, start+1, ... with the given values,
leaving all other slots alone: the effect of the decode loops that assign
cache[i] := vals[i] for i in 0..count-1 (with start = 0). -/
def writeSlots (cache : List ℚ) (vals : List ℚ) (start : Nat) : List ℚ :=
  match vals with
  | [] => cache
  | v :: vs => writeSlots (cache.set start v) vs (start + 1)

/-- getCellVoltage: bounds check, one 2-byte burst read at base + 2*i,
big-endian decode, cache update; 0.0 on invalid index (no transaction)
or on bus failure. -/
def getCellVoltage (regs : Regs) (ok : Bool) (st : DriverState) (cellIndex : Nat) :
    OpResult ℚ :=
  if ¬ isValidCellIndex st cellIndex then ⟨0, st, []⟩
  else
    let regAddr := PB7200_REG_CELL_VOLTAGE_BASE + cellIndex * 2
    if ok then
      let raw := word (readByte regs regAddr) (readByte regs (regAddr + 1))
      let v := rawToVoltage raw
      ⟨v, { st with cellVoltages := st.cellVoltages.set cellIndex v },
        [Transaction.readBurst regAddr 2]⟩
    else ⟨0, st, [Transaction.readBurst regAddr 2]⟩

/-- The list of voltages decoded from a burst read of 2*count bytes at the
cell-voltage base address: value i comes from bytes 2i and 2i+1 of the
burst, i.e. registers base+2i and base+2i+1. -/
def decodeVoltages (regs : Regs) (count : Nat) : List ℚ :=
  (List.range count).map fun i =>
    rawToVoltage (word (readByte regs (PB7200_REG_CELL_VOLTAGE_BASE + i * 2))
      (readByte regs (PB7200_REG_CELL_VOLTAGE_BASE + i * 2 + 1)))

/-- getAllCellVoltages: rejects count > _cellCount or count > 20 with no
transaction; otherwise one burst read of 2*count bytes; on success decodes
in index order into both the out array and cache slots 0..count-1; on bus
failure returns false with out and cache untouched.  The returned pair is
(success flag, out array after the call). -/
def getAllCellVoltages (regs : Regs) (ok : Bool) (st : DriverState)
    (out : List ℚ) (count : Nat) : OpResult (Bool × List ℚ) :=
  if count > st.cellCount ∨ count > PB7200_MAX_CELLS then ⟨(false, out), st, []⟩
  else if ok then
    let vals := decodeVoltages regs count
    ⟨(true, writeSlots out vals 0),
      { st with cellVoltages := writeSlots st.cellVoltages vals 0 },
      [Transaction.readBurst PB7200_REG_CELL_VOLTAGE_BASE (count * 2)]⟩
  else ⟨(false, out), st, [Transaction.readBurst PB7200_REG_CELL_VOLTAGE_BASE (count * 2)]⟩

/-- The list of temperatures decoded from a burst read at the temperature
base address (signed big-endian, 0.1 degC LSB). -/
def decodeTemps (regs : Regs) (count : Nat) : List ℚ :=
  (List.range count).map fun i =>
    rawToTemp (sext16 (word (readByte regs (PB7200_REG_TEMP_BASE + i * 2))
      (readByte regs (PB7200_REG_TEMP_BASE + i * 2 + 1))))

/-- getAllTemperatures: like getAllCellVoltages but only bounded by
PB7200_MAX_TEMPS and decoding signed values. -/
def getAllTemperatures (regs : Regs) (ok : Bool) (st : DriverState)
    (out : List ℚ) (count : Nat) : OpResult (Bool × List ℚ) :=
  if count > PB7200_MAX_TEMPS then ⟨(false, out), st, []⟩
  else if ok then
    let vals := decodeTemps regs count
    ⟨(true, writeSlots out vals 0),
      { st with temperatures := writeSlots st.temperatures vals 0 },
      [Transaction.readBurst PB7200_REG_TEMP_BASE (count * 2)]⟩
  else ⟨(false, out), st, [Transaction.readBurst PB7200_REG_TEMP_BASE (count * 2)]⟩

/-- getCurrent: one 2-byte burst read at 0x40, signed decode, cache update;
0.0 and unchanged cache on bus failure. -/
def getCurrent (regs : Regs) (ok : Bool) (st : DriverState) : OpResult ℚ :=
  if ok then
    let raw := sext16 (word (readByte regs PB7200_REG_CURRENT_H)
      (readByte regs (PB7200_REG_CURRENT_H + 1)))
    let c := rawToCurrent raw
    ⟨c, { st with current := c }, [Transaction.readBurst PB7200_REG_CURRENT_H 2]⟩
  else ⟨0, st, [Transaction.readBurst PB7200_REG_CURRENT_H 2]⟩

/-- getStatus: readRegister(0x01, _status); return _status — on failure the
stale cached byte is returned. -/
def getStatus (regs : Regs) (ok : Bool) (st : DriverState) : OpResult Nat :=
  if ok then
    ⟨readByte regs PB7200_REG_STATUS,
      { st with status := readByte regs PB7200_REG_STATUS },
      [Transaction.readReg PB7200_REG_STATUS]⟩
  else ⟨st.status, st, [Transaction.readReg PB7200_REG_STATUS]⟩

/-- getFaultStatus: readRegister(0x02, _faultStatus); return _faultStatus —
on failure the stale cached byte is returned. -/
def getFaultStatus (regs : Regs) (ok : Bool) (st : DriverState) : OpResult Nat :=
  if ok then
    ⟨readByte regs PB7200_REG_FAULT_STATUS,
      { st with faultStatus := readByte regs PB7200_REG_FAULT_STATUS },
      [Transaction.readReg PB7200_REG_FAULT_STATUS]⟩
  else ⟨st.faultStatus, st, [Transaction.readReg PB7200_REG_FAULT_STATUS]⟩

/-- update(): burst-read all cell voltages and all temperatures (the two
reads whose success flags are AND-ed into the result), then getCurrent,
getStatus, getFaultStatus whose outcomes are ignored.  The copies from the
local arrays back into the cache repeat assignments getAllCellVoltages /
getAllTemperatures already performed, so they are invisible in the state.
One Bool per constituent transport operation, in call order. -/
def update (regs : Regs) (vOk tOk cOk sOk fOk : Bool) (st : DriverState) :
    OpResult Bool :=
  let r1 := getAllCellVoltages regs vOk st (List.replicate PB7200_MAX_CELLS 0) st.cellCount
  let r2 := getAllTemperatures regs tOk r1.state (List.replicate PB7200_MAX_TEMPS 0)
    tempSensorCount
  let r3 := getCurrent regs cOk r2.state
  let r4 := getStatus regs sOk r3.state
  let r5 := getFaultStatus regs fOk r4.state
  ⟨r1.ret.1 && r2.ret.1, r5.state,
    r1.trace ++ r2.trace ++ r3.trace ++ r4.trace ++ r5.trace⟩

/-! Cache-derived aggregates (no bus access). -/

/-- The cache values the aggregate loops visit: _cellVoltages[i] for
i in 0.._cellCount-1 (reads of a 20-slot array, default 0.0). -/
def activeCellVoltages (st : DriverState) : List ℚ :=
  (List.range st.cellCount).map fun i => st.cellVoltages.getD i 0

/-- getMaxCellVoltage: maxVoltage starts at 0.0; each slot greater than the
running value replaces it. -/
def getMaxCellVoltage (st : DriverState) : ℚ :=
  (activeCellVoltages st).foldl (fun m v => if v > m then v else m) 0

/-- getMinCellVoltage: minVoltage starts at the 5.0 sentinel; a slot
replaces it only when it is smaller and strictly positive. -/
def getMinCellVoltage (st : DriverState) : ℚ :=
  (activeCellVoltages st).foldl (fun m v => if v < m ∧ v > 0 then v else m) 5

/-- getVoltageDelta: max minus min. -/
def getVoltageDelta (st : DriverState) : ℚ :=
  getMaxCellVoltage st - getMinCellVoltage st

/-! Balancing operations.  These touch only the device registers (no cache
field), so they return the register file and the success flag. -/

/-- Result of an operation that may rewrite device registers. -/
structure BusResult : Type where
  ret : Bool
  regs : Regs
  trace : List Transaction

/-- setBalancing: bounds check, then read-modify-write of bit i%8 of the
balance-control register at 0x50 + i/8.  readOk / writeOk are the outcomes
of the two transactions; a failed write leaves the register file unchanged. -/
def setBalancing (regs : Regs) (readOk writeOk : Bool) (st : DriverState)
    (cellIndex : Nat) (enable : Bool) : BusResult :=
  if ¬ isValidCellIndex st cellIndex then ⟨false, regs, []⟩
  else
    let regOffset := cellIndex / 8
    let bitOffset := cellIndex % 8
    let regAddr := PB7200_REG_BALANCE_CTRL1 + regOffset
    if readOk then
      let currentValue := readByte regs regAddr
      let newValue :=
        if enable then currentValue ||| (1 <<< bitOffset)
        else currentValue &&& (255 ^^^ (1 <<< bitOffset))
      ⟨writeOk, if writeOk then writeByte regs regAddr newValue else regs,
        [Transaction.readReg regAddr, Transaction.writeReg regAddr newValue]⟩
    else ⟨false, regs, [Transaction.readReg regAddr]⟩

/-- isBalancing: bounds check, read the containing control register, test
bit i%8; false on invalid index or read failure. -/
def isBalancing (regs : Regs) (ok : Bool) (st : DriverState) (cellIndex : Nat) : Bool :=
  if ¬ isValidCellIndex st cellIndex then false
  else if ok then
    let regOffset := cellIndex / 8
    let bitOffset := cellIndex % 8
    readByte regs (PB7200_REG_BALANCE_CTRL1 + regOffset) &&& (1 <<< bitOffset) ≠ 0
  else false

/-- stopAllBalancing: writes 0x00 to the three balance-control registers
unconditionally; the result is the AND of the three write outcomes. -/
def stopAllBalancing (regs : Regs) (w1 w2 w3 : Bool) : BusResult :=
  let regs1 := if w1 then writeByte regs PB7200_REG_BALANCE_CTRL1 0 else regs
  let regs2 := if w2 then writeByte regs1 PB7200_REG_BALANCE_CTRL2 0 else regs1
  let regs3 := if w3 then writeByte regs2 PB7200_REG_BALANCE_CTRL3 0 else regs2
  ⟨w1 && w2 && w3, regs3,
    [Transaction.writeReg PB7200_REG_BALANCE_CTRL1 0,
     Transaction.writeReg PB7200_REG_BALANCE_CTRL2 0,
     Transaction.writeReg PB7200_REG_BALANCE_CTRL3 0]⟩

/-- setAutoBalancing: when enabling, read-modify-write of the control
register setting bit 4 (0x10); when disabling, delegates to
stopAllBalancing.  The threshold parameter appears in the C signature
(uint16_t, default 50) and nowhere in the body. -/
def setAutoBalancing (regs : Regs) (readOk writeOk w1 w2 w3 : Bool)
    (enable : Bool) (threshold : Nat) : BusResult :=
  if enable then
    if readOk then
      let ctrlValue := readByte regs PB7200_REG_CONTROL ||| 0x10
      ⟨writeOk, if writeOk then writeByte regs PB7200_REG_CONTROL ctrlValue else regs,
        [Transaction.readReg PB7200_REG_CONTROL,
         Transaction.writeReg PB7200_REG_CONTROL ctrlValue]⟩
    else ⟨false, regs, [Transaction.readReg PB7200_REG_CONTROL]⟩
  else stopAllBalancing regs w1 w2 w3

/-! Protection configuration. -/

/-- ProtectionConfig: the five thresholds plus the three delay fields that
setProtectionConfig / getProtectionConfig never touch. -/
structure ProtectionConfig : Type where
  overVoltageThreshold : ℚ
  underVoltageThreshold : ℚ
  overCurrentThreshold : ℚ
  overTempThreshold : ℚ
  underTempThreshold : ℚ
  overVoltageDelay : Nat
  underVoltageDelay : Nat
  overCurrentDelay : Nat
deriving DecidableEq, Repr

/-- The unsigned 16-bit bit pattern of a signed 16-bit raw value, used when
a signed raw is split into bytes with (raw >> 8) & 0xFF and raw & 0xFF. -/
def int16Bits (i : Int) : Nat := (i % 65536).toNat

/-- setProtectionConfig, success path: converts each threshold and writes
its two bytes big-endian with single-byte writes in source order — OVP at
0x60/0x61, UVP at 0x61/0x62, OCP at 0x62/0x63, OTP at 0x63/0x64, UTP at
0x64/0x65.  Transport success is assumed (the claim under verification
conditions on a successful call). -/
def setProtectionConfig (regs : Regs) (config : ProtectionConfig) : Regs :=
  let ovpRaw := voltageToRaw config.overVoltageThreshold
  let uvpRaw := voltageToRaw config.underVoltageThreshold
  let ocpRaw := int16Bits (currentToRaw config.overCurrentThreshold)
  let otpRaw := int16Bits (tempToRaw config.overTempThreshold)
  let utpRaw := int16Bits (tempToRaw config.underTempThreshold)
  let r1 := writeByte regs PB7200_REG_CONFIG_OVP (ovpRaw >>> 8 &&& 0xFF)
  let r2 := writeByte r1 (PB7200_REG_CONFIG_OVP + 1) (ovpRaw &&& 0xFF)
  let r3 := writeByte r2 PB7200_REG_CONFIG_UVP (uvpRaw >>> 8 &&& 0xFF)
  let r4 := writeByte r3 (PB7200_REG_CONFIG_UVP + 1) (uvpRaw &&& 0xFF)
  let r5 := writeByte r4 PB7200_REG_CONFIG_OCP (ocpRaw >>> 8 &&& 0xFF)
  let r6 := writeByte r5 (PB7200_REG_CONFIG_OCP + 1) (ocpRaw &&& 0xFF)
  let r7 := writeByte r6 PB7200_REG_CONFIG_OTP (otpRaw >>> 8 &&& 0xFF)
  let r8 := writeByte r7 (PB7200_REG_CONFIG_OTP + 1) (otpRaw &&& 0xFF)
  let r9 := writeByte r8 PB7200_REG_CONFIG_UTP (utpRaw >>> 8 &&& 0xFF)
  writeByte r9 (PB7200_REG_CONFIG_UTP + 1) (utpRaw &&& 0xFF)

/-- getProtectionConfig, success path: five 2-byte burst reads, one per
threshold base address, each decoded with the conversion of its quantity.
The delay fields of the passed-in structure are left as they were. -/
def getProtectionConfig (regs : Regs) (config : ProtectionConfig) : ProtectionConfig :=
  { config with
    overVoltageThreshold :=
      rawToVoltage (word (readByte regs PB7200_REG_CONFIG_OVP)
        (readByte regs (PB7200_REG_CONFIG_OVP + 1)))
    underVoltageThreshold :=
      rawToVoltage (word (readByte regs PB7200_REG_CONFIG_UVP)
        (readByte regs (PB7200_REG_CONFIG_UVP + 1)))
    overCurrentThreshold :=
      rawToCurrent (sext16 (word (readByte regs PB7200_REG_CONFIG_OCP)
        (readByte regs (PB7200_REG_CONFIG_OCP + 1))))
    overTempThreshold :=
      rawToTemp (sext16 (word (readByte regs PB7200_REG_CONFIG_OTP)
        (readByte regs (PB7200_REG_CONFIG_OTP + 1))))
    underTempThreshold :=
      rawToTemp (sext16 (word (readByte regs PB7200_REG_CONFIG_UTP)
        (readByte regs (PB7200_REG_CONFIG_UTP + 1)))) }

/-! getCellData. -/

/-- CellData as in the header. -/
structure CellData : Type where
  voltage : ℚ
  balancing : Bool
  overvoltage : Bool
  undervoltage : Bool
deriving DecidableEq, Repr

/-- getCellData: bounds check, then fills the structure from
getCellVoltage, isBalancing and getFaultStatus and returns true; the three
transport outcomes do not influence the returned Bool.  The passed-in
structure is returned untouched on an invalid index. -/
def getCellData (regs : Regs) (vOk bOk fOk : Bool) (st : DriverState)
    (cellIndex : Nat) (dataIn : CellData) : OpResult (Bool × CellData) :=
  if ¬ isValidCellIndex st cellIndex then ⟨(false, dataIn), st, []⟩
  else
    let r1 := getCellVoltage regs vOk st cellIndex
    let bal := isBalancing regs bOk r1.state cellIndex
    let r2 := getFaultStatus regs fOk r1.state
    let balTrace := [Transaction.readReg
      (PB7200_REG_BALANCE_CTRL1 + cellIndex / 8)]
    ⟨(true,
      { voltage := r1.ret
        balancing := bal
        overvoltage := r2.ret &&& PB7200_STATUS_OVP ≠ 0
        undervoltage := r2.ret &&& PB7200_STATUS_UVP ≠ 0 }),
      r2.state, r1.trace ++ balTrace ++ r2.trace⟩

/-! Helper lemmas about bytes, bits and cache slots. -/

theorem readByte_writeByte_self (regs : Regs) (addr value : Nat) :
    readByte (writeByte regs addr value) addr = value % 256 := by
  simp [readByte, writeByte]

theorem readByte_writeByte_ne (regs : Regs) (addr addr2 value : Nat) (h : addr2 ≠ addr) :
    readByte (writeByte regs addr value) addr2 = readByte regs addr2 := by
  simp [readByte, writeByte, h]

theorem readByte_lt (regs : Regs) (addr : Nat) : readByte regs addr < 256 :=
  Nat.mod_lt _ (by norm_num)

theorem and_one_shl_ne_zero (n b : Nat) : (n &&& (1 <<< b) ≠ 0) ↔ n.testBit b := by
  rw [Nat.shiftLeft_eq, one_mul, Nat.and_two_pow]
  cases h : n.testBit b <;> simp [h, Nat.pow_eq_zero]

theorem setBit_testBit_self (x b : Nat) (hb : b < 8) :
    ((x ||| (1 <<< b)) % 256).testBit b = true := by
  have h256 : (256 : Nat) = 2 ^ 8 := by norm_num
  rw [h256, Nat.testBit_mod_two_pow, Nat.testBit_or, Nat.shiftLeft_eq, one_mul,
    Nat.testBit_two_pow_self]
  simp [hb]

theorem setBit_testBit_other (x b c : Nat) (hc : c < 8) (hne : b ≠ c) :
    ((x ||| (1 <<< b)) % 256).testBit c = x.testBit c := by
  have h256 : (256 : Nat) = 2 ^ 8 := by norm_num
  rw [h256, Nat.testBit_mod_two_pow, Nat.testBit_or, Nat.shiftLeft_eq, one_mul,
    Nat.testBit_two_pow_of_ne hne]
  simp [hc]

theorem clearBit_testBit_self (x b : Nat) (hb : b < 8) :
    ((x &&& (255 ^^^ (1 <<< b))) % 256).testBit b = false := by
  have h256 : (256 : Nat) = 2 ^ 8 := by norm_num
  have h255 : (255 : Nat) = 2 ^ 8 - 1 := by norm_num
  rw [h256, h255, Nat.testBit_mod_two_pow, Nat.testBit_and, Nat.testBit_xor,
    Nat.shiftLeft_eq, one_mul, Nat.testBit_two_pow_self, Nat.testBit_two_pow_sub_one]
  simp [hb]

theorem clearBit_testBit_other (x b c : Nat) (hc : c < 8) (hne : b ≠ c) :
    ((x &&& (255 ^^^ (1 <<< b))) % 256).testBit c = x.testBit c := by
  have h256 : (256 : Nat) = 2 ^ 8 := by norm_num
  have h255 : (255 : Nat) = 2 ^ 8 - 1 := by norm_num
  rw [h256, h255, Nat.testBit_mod_two_pow, Nat.testBit_and, Nat.testBit_xor,
    Nat.shiftLeft_eq, one_mul, Nat.testBit_two_pow_of_ne hne, Nat.testBit_two_pow_sub_one]
  simp [hc]

theorem writeSlots_length (cache vals : List ℚ) (start : Nat) :
    (writeSlots cache vals start).length = cache.length := by
  induction vals generalizing cache start with
  | nil => rfl
  | cons v vs ih => rw [writeSlots, ih, List.length_set]

theorem writeSlots_append (cache vs : List ℚ) (v : ℚ) (start : Nat) :
    writeSlots cache (vs ++ [v]) start =
      (writeSlots cache vs start).set (start + vs.length) v := by
  induction vs generalizing cache start with
  | nil => simp [writeSlots]
  | cons w ws ih =>
    show writeSlots (cache.set start w) (ws ++ [v]) (start + 1) =
      (writeSlots (cache.set start w) ws (start + 1)).set (start + (ws.length + 1)) v
    rw [ih]
    have hidx : start + 1 + ws.length = start + (ws.length + 1) := by omega
    rw [hidx]

theorem writeSlots_getD_ge (cache vals : List ℚ) (start n : Nat)
    (h : n < start ∨ start + vals.length ≤ n) :
    (writeSlots cache vals start).getD n 0 = cache.getD n 0 := by
  induction vals generalizing cache start with
  | nil => rfl
  | cons v vs ih =>
    show (writeSlots (cache.set start v) vs (start + 1)).getD n 0 = _
    rw [ih _ _ (by simp only [List.length_cons] at h; omega)]
    rw [List.getD_eq_getElem?_getD, List.getD_eq_getElem?_getD,
      List.getElem?_set_ne (by simp only [List.length_cons] at h; omega)]

theorem writeSlots_getD_lt (cache vals : List ℚ) (start n : Nat)
    (h1 : start ≤ n) (h2 : n < start + vals.length)
    (hlen : start + vals.length ≤ cache.length) :
    (writeSlots cache vals start).getD n 0 = vals.getD (n - start) 0 := by
  induction vals generalizing cache start with
  | nil => simp only [List.length_nil] at h2; omega
  | cons v vs ih =>
    simp only [List.length_cons] at h2 hlen
    show (writeSlots (cache.set start v) vs (start + 1)).getD n 0 = _
    by_cases hn : n = start
    · subst hn
      rw [writeSlots_getD_ge _ _ _ _ (Or.inl (by omega))]
      rw [List.getD_eq_getElem?_getD, List.getElem?_set_self (by omega)]
      simp
    · rw [ih (cache.set start v) (start + 1) (by omega) (by omega)
        (by rw [List.length_set]; omega)]
      have hrw : n - start = (n - (start + 1)) + 1 := by omega
      rw [hrw, List.getD_cons_succ]

/-! Claim theorems. -/

theorem decodeVoltages_length (regs : Regs) (count : Nat) :
    (decodeVoltages regs count).length = count := by
  simp [decodeVoltages]

theorem decodeVoltages_getD (regs : Regs) (count i : Nat) (h : i < count) :
    (decodeVoltages regs count).getD i 0 =
      rawToVoltage (word (readByte regs (PB7200_REG_CELL_VOLTAGE_BASE + i * 2))
        (readByte regs (PB7200_REG_CELL_VOLTAGE_BASE + i * 2 + 1))) := by
  rw [decodeVoltages, List.getD_eq_getElem?_getD, List.getElem?_map, List.getElem?_range h]
  rfl

theorem decodeVoltages_succ (regs : Regs) (n : Nat) :
    decodeVoltages regs (n + 1) = decodeVoltages regs n ++
      [rawToVoltage (word (readByte regs (PB7200_REG_CELL_VOLTAGE_BASE + n * 2))
        (readByte regs (PB7200_REG_CELL_VOLTAGE_BASE + n * 2 + 1)))] := by
  simp [decodeVoltages, List.range_succ]

/-- C9: for every raw big-endian register pair (msb, lsb) and each of the
three quantities (voltage, unsigned, LSB 0.001; current, signed, LSB 0.01;
temperature, signed, LSB 0.1), decoding, re-encoding with truncation toward
zero, and decoding again reproduces the decoded value within one LSB (here
in fact exactly). -/
theorem decode_encode_decode_roundtrip (msb lsb : Nat) (h1 : msb < 256) (h2 : lsb < 256) :
    |rawToVoltage (voltageToRaw (rawToVoltage (word msb lsb))) -
        rawToVoltage (word msb lsb)| ≤ PB7200_VOLTAGE_LSB ∧
    |rawToCurrent (currentToRaw (rawToCurrent (sext16 (word msb lsb)))) -
        rawToCurrent (sext16 (word msb lsb))| ≤ PB7200_CURRENT_LSB ∧
    |rawToTemp (tempToRaw (rawToTemp (sext16 (word msb lsb)))) -
        rawToTemp (sext16 (word msb lsb))| ≤ PB7200_TEMP_LSB := by
  have hw := word_lt msb lsb h1 h2
  have hs := sext16_range (word msb lsb) hw
  rw [voltage_roundtrip _ hw, current_roundtrip _ hs.1 hs.2, temp_roundtrip _ hs.1 hs.2]
  refine ⟨?_, ?_, ?_⟩ <;>
    simp [PB7200_VOLTAGE_LSB, PB7200_CURRENT_LSB, PB7200_TEMP_LSB]

/-- Witness for C9 at the concrete register pair (0x12, 0x34). -/
theorem decode_encode_decode_roundtrip_witness :
    |rawToVoltage (voltageToRaw (rawToVoltage (word 0x12 0x34))) -
        rawToVoltage (word 0x12 0x34)| ≤ PB7200_VOLTAGE_LSB ∧
    |rawToCurrent (currentToRaw (rawToCurrent (sext16 (word 0x12 0x34)))) -
        rawToCurrent (sext16 (word 0x12 0x34))| ≤ PB7200_CURRENT_LSB ∧
    |rawToTemp (tempToRaw (rawToTemp (sext16 (word 0x12 0x34)))) -
        rawToTemp (sext16 (word 0x12 0x34))| ≤ PB7200_TEMP_LSB :=
  decode_encode_decode_roundtrip 0x12 0x34 (by norm_num) (by norm_num)

/-- C8: the threshold argument of setAutoBalancing is never encoded to any
register: two calls differing only in the threshold issue the same
transactions, return the same Bool and leave the same register file. -/
theorem setAutoBalancing_threshold_dead (regs : Regs) (readOk writeOk w1 w2 w3 : Bool)
    (enable : Bool) (t1 t2 : Nat) :
    setAutoBalancing regs readOk writeOk w1 w2 w3 enable t1 =
      setAutoBalancing regs readOk writeOk w1 w2 w3 enable t2 := rfl

/-- C7: getCellVoltage on an index at or above the configured cell count
returns 0.0, issues no bus transaction, and leaves the cache untouched. -/
theorem getCellVoltage_invalid_index (regs : Regs) (ok : Bool) (st : DriverState)
    (i : Nat) (h : st.cellCount ≤ i) :
    getCellVoltage regs ok st i = ⟨0, st, []⟩ := by
  have hv : isValidCellIndex st i = false := by
    simp only [isValidCellIndex, decide_eq_false_iff_not]
    omega
  simp [getCellVoltage, hv]

/-- Witness for C7: getCellVoltage(20) on a 4-cell pack returns 0.0 with an
empty transaction trace and an unchanged state. -/
theorem getCellVoltage_invalid_index_witness :
    getCellVoltage (fun _ => 0) true
        ⟨4, List.replicate 20 0, List.replicate 8 0, 0, 0, 0⟩ 20 =
      ⟨0, ⟨4, List.replicate 20 0, List.replicate 8 0, 0, 0, 0⟩, []⟩ :=
  getCellVoltage_invalid_index (fun _ => 0) true _ 20 (by norm_num)

/-- A concrete 4-cell driver state, used by witnesses. -/
def sampleState : DriverState :=
  ⟨4, List.replicate 20 0, List.replicate 8 0, 0, 0, 0⟩

/-- A concrete register file holding byte a at address a, used by witnesses. -/
def sampleRegs : Regs := fun a => a % 256

/-- C2: update returns true exactly when both burst reads (cell voltages
and temperatures) succeed; the outcomes of the current, status and fault
reads never influence the returned flag. -/
theorem update_ret_iff_bursts (regs : Regs) (st : DriverState)
    (h : st.cellCount ≤ PB7200_MAX_CELLS) (vOk tOk cOk sOk fOk : Bool) :
    (update regs vOk tOk cOk sOk fOk st).ret = (vOk && tOk) := by
  have hc : ¬ (st.cellCount > st.cellCount ∨ st.cellCount > PB7200_MAX_CELLS) :=
    not_or.mpr ⟨by omega, by omega⟩
  have h20 : ¬ (PB7200_MAX_CELLS < st.cellCount) := by omega
  have ht : ¬ (tempSensorCount > PB7200_MAX_TEMPS) := by
    norm_num [tempSensorCount, PB7200_MAX_TEMPS]
  cases vOk <;> cases tOk <;>
    simp [update, getAllCellVoltages, getAllTemperatures, hc, h20, ht]

/-- Witness for C2: on the sample state a failed temperature burst forces a
false return although every other read succeeded. -/
theorem update_ret_iff_bursts_witness :
    (update sampleRegs true false true true true sampleState).ret = (true && false) :=
  update_ret_iff_bursts sampleRegs sampleState (by norm_num [sampleState, PB7200_MAX_CELLS])
    true false true true true

/-- C3: getAllCellVoltages rejects count greater than the configured cell
count or than 20; a failed burst returns false leaving the out array and
the whole cache state untouched; a successful burst returns true, rewrites
cache slots 0..count-1 with the big-endian decodes in index order, and
leaves all higher slots unchanged. -/
theorem getAllCellVoltages_contract (regs : Regs) (st : DriverState)
    (out : List ℚ) (count : Nat) :
    ((count > st.cellCount ∨ count > PB7200_MAX_CELLS) →
      ∀ ok, (getAllCellVoltages regs ok st out count).ret.1 = false) ∧
    ((getAllCellVoltages regs false st out count).ret.1 = false ∧
      (getAllCellVoltages regs false st out count).ret.2 = out ∧
      (getAllCellVoltages regs false st out count).state = st) ∧
    (count ≤ st.cellCount → count ≤ PB7200_MAX_CELLS → count ≤ st.cellVoltages.length →
      (getAllCellVoltages regs true st out count).ret.1 = true ∧
      (∀ i, i < count →
        ((getAllCellVoltages regs true st out count).state.cellVoltages).getD i 0 =
          rawToVoltage (word (readByte regs (PB7200_REG_CELL_VOLTAGE_BASE + i * 2))
            (readByte regs (PB7200_REG_CELL_VOLTAGE_BASE + i * 2 + 1)))) ∧
      (∀ i, count ≤ i →
        ((getAllCellVoltages regs true st out count).state.cellVoltages).getD i 0 =
          st.cellVoltages.getD i 0)) := by
  refine ⟨?_, ?_, ?_⟩
  · intro hgt ok
    simp [getAllCellVoltages, hgt]
  · by_cases hgt : count > st.cellCount ∨ count > PB7200_MAX_CELLS <;>
      simp [getAllCellVoltages, hgt]
  · intro h1 h2 h3
    have hc : ¬ (count > st.cellCount ∨ count > PB7200_MAX_CELLS) :=
      not_or.mpr ⟨by omega, by omega⟩
    refine ⟨by simp [getAllCellVoltages, hc], ?_, ?_⟩
    · intro i hi
      simp only [getAllCellVoltages, hc, if_neg, if_false, ite_false, if_true, ite_true]
      rw [writeSlots_getD_lt st.cellVoltages (decodeVoltages regs count) 0 i (by omega)
        (by rw [decodeVoltages_length]; omega) (by rw [decodeVoltages_length]; omega)]
      rw [Nat.sub_zero, decodeVoltages_getD regs count i hi]
    · intro i hi
      simp only [getAllCellVoltages, hc, if_neg, if_false, ite_false, if_true, ite_true]
      rw [writeSlots_getD_ge st.cellVoltages (decodeVoltages regs count) 0 i
        (Or.inr (by rw [decodeVoltages_length]; omega))]

/-- Witness for C3: concrete run on a 4-cell state with count 2 — the
failed burst changes nothing and returns false, the successful burst
returns true and slot 0 holds the decode of registers 0x10, 0x11. -/
theorem getAllCellVoltages_contract_witness :
    (getAllCellVoltages sampleRegs false sampleState (List.replicate 4 0) 2).ret.1 = false ∧
    (getAllCellVoltages sampleRegs false sampleState (List.replicate 4 0) 2).state = sampleState ∧
    (getAllCellVoltages sampleRegs true sampleState (List.replicate 4 0) 2).ret.1 = true ∧
    ((getAllCellVoltages sampleRegs true sampleState (List.replicate 4 0) 2).state.cellVoltages).getD 0 0 =
      rawToVoltage (word (readByte sampleRegs (PB7200_REG_CELL_VOLTAGE_BASE + 0 * 2))
        (readByte sampleRegs (PB7200_REG_CELL_VOLTAGE_BASE + 0 * 2 + 1))) := by
  have h := getAllCellVoltages_contract sampleRegs sampleState (List.replicate 4 0) 2
  have h3 := h.2.2 (by norm_num [sampleState]) (by norm_num [PB7200_MAX_CELLS])
    (by norm_num [sampleState])
  exact ⟨h.2.1.1, h.2.1.2.2, h3.1, h3.2.1 0 (by norm_num)⟩

/-- The state after the calls getCellVoltage 0, getCellVoltage 1, ...,
getCellVoltage (count-1), in that order, all with successful transport. -/
def seqGetCellVoltage (regs : Regs) (st : DriverState) : Nat → DriverState
  | 0 => st
  | n + 1 => (getCellVoltage regs true (seqGetCellVoltage regs st n) n).state

/-- C5: with every transport read succeeding and the device registers
unchanged between transactions, one getAllCellVoltages call for count cells
leaves the driver cache in exactly the state produced by the sequence
getCellVoltage 0, ..., getCellVoltage (count-1). -/
theorem getAllCellVoltages_refines_sequential (regs : Regs) (st : DriverState)
    (out : List ℚ) (hmax : st.cellCount ≤ PB7200_MAX_CELLS) :
    ∀ count, count ≤ st.cellCount →
      (getAllCellVoltages regs true st out count).state = seqGetCellVoltage regs st count := by
  intro count
  induction count with
  | zero =>
    intro _
    have hcond : ¬ (0 > st.cellCount ∨ 0 > PB7200_MAX_CELLS) := not_or.mpr ⟨by omega, by omega⟩
    simp [getAllCellVoltages, hcond, writeSlots, decodeVoltages, seqGetCellVoltage]
  | succ n ih =>
    intro hcount
    have hn : n ≤ st.cellCount := by omega
    have hcondn : ¬ (n > st.cellCount ∨ n > PB7200_MAX_CELLS) := not_or.mpr ⟨by omega, by omega⟩
    have hcond : ¬ (n + 1 > st.cellCount ∨ n + 1 > PB7200_MAX_CELLS) :=
      not_or.mpr ⟨by omega, by omega⟩
    have hseq : seqGetCellVoltage regs st (n + 1) =
        (getCellVoltage regs true (seqGetCellVoltage regs st n) n).state := rfl
    rw [hseq, ← ih hn]
    have hvalid : isValidCellIndex
        { st with cellVoltages := writeSlots st.cellVoltages (decodeVoltages regs n) 0 } n
          = true := by
      simp only [isValidCellIndex, decide_eq_true_iff]
      omega
    simp only [getAllCellVoltages, hcond, hcondn, ite_false, ite_true, if_false, if_true]
    simp only [getCellVoltage, hvalid, Bool.not_true, ite_false, ite_true, if_false, if_true]
    rw [decodeVoltages_succ, writeSlots_append, decodeVoltages_length, Nat.zero_add]
    simp

/-- Witness for C5: concrete run on the sample state with count 3. -/
theorem getAllCellVoltages_refines_sequential_witness :
    (getAllCellVoltages sampleRegs true sampleState (List.replicate 4 0) 3).state =
      seqGetCellVoltage sampleRegs sampleState 3 :=
  getAllCellVoltages_refines_sequential sampleRegs sampleState (List.replicate 4 0)
    (by norm_num [sampleState, PB7200_MAX_CELLS]) 3 (by norm_num [sampleState])

theorem foldl_max_eq (l : List ℚ) : ∀ a : ℚ,
    l.foldl (fun m v => if v > m then v else m) a = l.foldl max a := by
  induction l with
  | nil => intro a; rfl
  | cons v t ih =>
    intro a
    rw [List.foldl_cons, List.foldl_cons, ih]
    congr 1
    rcases le_or_lt v a with h | h
    · rw [if_neg (not_lt.mpr h), max_eq_left h]
    · rw [if_pos h, max_eq_right h.le]

theorem foldl_min_filter_eq (l : List ℚ) : ∀ a : ℚ,
    l.foldl (fun m v => if v < m ∧ v > 0 then v else m) a =
      (l.filter fun v => decide (0 < v)).foldl min a := by
  induction l with
  | nil => intro a; rfl
  | cons v t ih =>
    intro a
    by_cases h0 : 0 < v
    · rw [List.foldl_cons]
      have hf : (v :: t).filter (fun v => decide (0 < v)) =
          v :: t.filter (fun v => decide (0 < v)) := by
        simp [List.filter_cons, h0]
      rw [hf, List.foldl_cons, ih]
      congr 1
      rcases lt_or_le v a with h | h
      · rw [if_pos ⟨h, h0⟩]
        exact (min_eq_right h.le).symm
      · rw [if_neg (by rintro ⟨h1, _⟩; exact absurd h1 (not_lt.mpr h))]
        exact (min_eq_left h).symm
    · rw [List.foldl_cons]
      have hf : (v :: t).filter (fun v => decide (0 < v)) =
          t.filter (fun v => decide (0 < v)) := by
        simp [List.filter_cons, h0]
      rw [hf, if_neg (by rintro ⟨_, h1⟩; exact h0 h1)]
      exact ih a

/-- An example state: a 4-cell pack whose cache holds 3.700, 3.715, 3.690
and 3.705 V in the first four slots. -/
def exampleVoltState : DriverState :=
  ⟨4, [37/10, 3715/1000, 369/100, 3705/1000] ++ List.replicate 16 0,
    List.replicate 8 0, 0, 0, 0⟩

/-- C6: getMaxCellVoltage is the maximum of 0.0 and the active cached
voltages, getMinCellVoltage is the minimum starting from the 5.0 sentinel
over only the cached voltages strictly above 0.0, getVoltageDelta always
equals their difference, and on the documented 4-cell example the values
are 3.715, 3.690 and 0.025 (within 1 mV). -/
theorem voltage_aggregate_contract :
    (∀ st : DriverState, getMaxCellVoltage st = (activeCellVoltages st).foldl max 0) ∧
    (∀ st : DriverState, getMinCellVoltage st =
      ((activeCellVoltages st).filter fun v => decide (0 < v)).foldl min 5) ∧
    (∀ st : DriverState, getVoltageDelta st = getMaxCellVoltage st - getMinCellVoltage st) ∧
    getMaxCellVoltage exampleVoltState = 3715/1000 ∧
    getMinCellVoltage exampleVoltState = 369/100 ∧
    |getVoltageDelta exampleVoltState - 25/1000| ≤ PB7200_VOLTAGE_LSB := by
  refine ⟨fun st => foldl_max_eq _ _, fun st => foldl_min_filter_eq _ _,
    fun st => rfl, ?_, ?_, ?_⟩ <;>
    norm_num [getMaxCellVoltage, getMinCellVoltage, getVoltageDelta, activeCellVoltages,
      exampleVoltState, List.range_succ, List.getD_cons_zero, List.getD_cons_succ,
      PB7200_VOLTAGE_LSB]

theorem isBalancing_valid (regs : Regs) (st : DriverState) (k : Nat)
    (hk : k < st.cellCount) :
    isBalancing regs true st k =
      decide (readByte regs (PB7200_REG_BALANCE_CTRL1 + k / 8) &&& (1 <<< (k % 8)) ≠ 0) := by
  simp [isBalancing, isValidCellIndex, hk]

theorem setBalancing_regs_valid (regs : Regs) (st : DriverState) (k : Nat) (enable : Bool)
    (hk : k < st.cellCount) :
    (setBalancing regs true true st k enable).regs =
      writeByte regs (PB7200_REG_BALANCE_CTRL1 + k / 8)
        (if enable then readByte regs (PB7200_REG_BALANCE_CTRL1 + k / 8) ||| (1 <<< (k % 8))
         else readByte regs (PB7200_REG_BALANCE_CTRL1 + k / 8) &&& (255 ^^^ (1 <<< (k % 8)))) := by
  cases enable <;> simp [setBalancing, isValidCellIndex, hk]

/-- C4: a successful setBalancing(i, enable) modifies only bit i%8 of
balance-control register 0x50 + i/8: afterwards isBalancing(i) returns
enable, and isBalancing(j) for every other valid index j — in the same
control register or not — returns what it returned before the call. -/
theorem setBalancing_frame (regs : Regs) (st : DriverState) (i j : Nat) (enable : Bool)
    (hi : i < st.cellCount) (hj : j < st.cellCount) (hne : j ≠ i) :
    (setBalancing regs true true st i enable).ret = true ∧
    isBalancing (setBalancing regs true true st i enable).regs true st i = enable ∧
    isBalancing (setBalancing regs true true st i enable).regs true st j =
      isBalancing regs true st j := by
  have hbi : i % 8 < 8 := Nat.mod_lt _ (by norm_num)
  have hbj : j % 8 < 8 := Nat.mod_lt _ (by norm_num)
  refine ⟨by simp [setBalancing, isValidCellIndex, hi], ?_, ?_⟩
  · rw [isBalancing_valid _ _ _ hi, setBalancing_regs_valid _ _ _ _ hi]
    cases enable with
    | true =>
      rw [if_pos rfl, readByte_writeByte_self, decide_eq_true_iff, and_one_shl_ne_zero]
      exact setBit_testBit_self _ _ hbi
    | false =>
      rw [if_neg (by simp), readByte_writeByte_self, decide_eq_false_iff_not,
        and_one_shl_ne_zero]
      simp [clearBit_testBit_self _ _ hbi]
  · rw [isBalancing_valid _ _ _ hj, isBalancing_valid _ _ _ hj,
      setBalancing_regs_valid _ _ _ _ hi]
    by_cases hdiv : j / 8 = i / 8
    · have haddr : PB7200_REG_BALANCE_CTRL1 + j / 8 = PB7200_REG_BALANCE_CTRL1 + i / 8 := by
        rw [hdiv]
      have hbc : i % 8 ≠ j % 8 := by omega
      rw [haddr, readByte_writeByte_self, decide_eq_decide,
        and_one_shl_ne_zero, and_one_shl_ne_zero]
      cases enable with
      | true => rw [if_pos rfl, setBit_testBit_other _ _ _ hbj hbc]
      | false => rw [if_neg (by simp), clearBit_testBit_other _ _ _ hbj hbc]
    · have haddr : PB7200_REG_BALANCE_CTRL1 + j / 8 ≠ PB7200_REG_BALANCE_CTRL1 + i / 8 := by
        simp only [PB7200_REG_BALANCE_CTRL1]
        omega
      rw [readByte_writeByte_ne _ _ _ _ haddr]

/-- Witness for C4: enabling balancing of cell 1 on the sample state leaves
isBalancing of cell 2 unchanged and makes isBalancing of cell 1 true. -/
theorem setBalancing_frame_witness :
    (setBalancing sampleRegs true true sampleState 1 true).ret = true ∧
    isBalancing (setBalancing sampleRegs true true sampleState 1 true).regs true
      sampleState 1 = true ∧
    isBalancing (setBalancing sampleRegs true true sampleState 1 true).regs true
      sampleState 2 = isBalancing sampleRegs true sampleState 2 :=
  setBalancing_frame sampleRegs sampleState 1 2 true (by norm_num [sampleState])
    (by norm_num [sampleState]) (by norm_num)

/-- C10: getCellData's Bool reflects index validity only: for a valid index
it returns true under every combination of transport outcomes; for an index
at or above cellCount it returns false; and when every transport read fails
the returned data carries voltage 0.0, balancing false, and fault flags
derived from the stale cached fault byte. -/
theorem getCellData_ret_index_only (regs : Regs) (st : DriverState) (dataIn : CellData)
    (i : Nat) (hi : i < st.cellCount) :
    (∀ vOk bOk fOk, (getCellData regs vOk bOk fOk st i dataIn).ret.1 = true) ∧
    (∀ k, st.cellCount ≤ k → ∀ vOk bOk fOk,
      (getCellData regs vOk bOk fOk st k dataIn).ret.1 = false) ∧
    ((getCellData regs false false false st i dataIn).ret.2.voltage = 0 ∧
     (getCellData regs false false false st i dataIn).ret.2.balancing = false ∧
     (getCellData regs false false false st i dataIn).ret.2.overvoltage =
       decide (st.faultStatus &&& PB7200_STATUS_OVP ≠ 0) ∧
     (getCellData regs false false false st i dataIn).ret.2.undervoltage =
       decide (st.faultStatus &&& PB7200_STATUS_UVP ≠ 0)) := by
  refine ⟨?_, ?_, ?_⟩
  · intro vOk bOk fOk
    simp [getCellData, isValidCellIndex, hi]
  · intro k hk vOk bOk fOk
    have hv : isValidCellIndex st k = false := by
      simp only [isValidCellIndex, decide_eq_false_iff_not]
      omega
    simp [getCellData, hv]
  · refine ⟨?_, ?_, ?_, ?_⟩ <;>
      simp [getCellData, getCellVoltage, getFaultStatus, isBalancing,
        isValidCellIndex, hi]

/-- Witness for C10: on the 4-cell sample state, cell 1 with all transports
failing still returns true with voltage 0.0, and cell 9 returns false. -/
theorem getCellData_ret_index_only_witness :
    (getCellData sampleRegs false false false sampleState 1 ⟨0, false, false, false⟩).ret.1
        = true ∧
    (getCellData sampleRegs true true true sampleState 9 ⟨0, false, false, false⟩).ret.1
        = false ∧
    (getCellData sampleRegs false false false sampleState 1
        ⟨0, false, false, false⟩).ret.2.voltage = 0 := by
  have h := getCellData_ret_index_only sampleRegs sampleState ⟨0, false, false, false⟩ 1
    (by norm_num [sampleState])
  exact ⟨h.1 false false false, h.2.1 9 (by norm_num [sampleState]) true true true, h.2.2.1⟩

/-- The concrete protection configuration exhibiting the register overlap:
OVP 4.2 V, UVP 3.0 V, OCP 10 A, OTP 60 degC, UTP 0 degC. -/
def overlapConfig : ProtectionConfig :=
  ⟨21/5, 3, 10, 60, 0, 0, 0, 0⟩

/-- C1 is refuted by the code: the five protection slots are 2 bytes wide
but their base addresses 0x60..0x64 are only one apart, so each slot
shares a byte with the next (OVP's low byte address is UVP's high byte
address, and so on), and on a device whose reads return the last byte
written, a successful setProtectionConfig of 4.2 V OVP followed by a
successful getProtectionConfig returns 4.107 V — off by 93 LSB, not
within one LSB. -/
theorem protectionConfig_slots_overlap :
    PB7200_REG_CONFIG_OVP + 1 = PB7200_REG_CONFIG_UVP ∧
    PB7200_REG_CONFIG_UVP + 1 = PB7200_REG_CONFIG_OCP ∧
    PB7200_REG_CONFIG_OCP + 1 = PB7200_REG_CONFIG_OTP ∧
    PB7200_REG_CONFIG_OTP + 1 = PB7200_REG_CONFIG_UTP ∧
    (getProtectionConfig (setProtectionConfig (fun _ => 0) overlapConfig)
        overlapConfig).overVoltageThreshold = 4107/1000 ∧
    ¬ |(getProtectionConfig (setProtectionConfig (fun _ => 0) overlapConfig)
          overlapConfig).overVoltageThreshold -
        overlapConfig.overVoltageThreshold| ≤ PB7200_VOLTAGE_LSB := by
  have hovp : voltageToRaw overlapConfig.overVoltageThreshold = 4200 := by
    have h : ratTrunc (overlapConfig.overVoltageThreshold / PB7200_VOLTAGE_LSB) = 4200 := by
      norm_num [overlapConfig, ratTrunc, PB7200_VOLTAGE_LSB]
    rw [voltageToRaw, h]
    decide
  have huvp : voltageToRaw overlapConfig.underVoltageThreshold = 3000 := by
    have h : ratTrunc (overlapConfig.underVoltageThreshold / PB7200_VOLTAGE_LSB) = 3000 := by
      norm_num [overlapConfig, ratTrunc, PB7200_VOLTAGE_LSB]
    rw [voltageToRaw, h]
    decide
  have hocp : int16Bits (currentToRaw overlapConfig.overCurrentThreshold) = 1000 := by
    have h : ratTrunc (overlapConfig.overCurrentThreshold / PB7200_CURRENT_LSB) = 1000 := by
      norm_num [overlapConfig, ratTrunc, PB7200_CURRENT_LSB]
    rw [currentToRaw, h]
    decide
  have hotp : int16Bits (tempToRaw overlapConfig.overTempThreshold) = 600 := by
    have h : ratTrunc (overlapConfig.overTempThreshold / PB7200_TEMP_LSB) = 600 := by
      norm_num [overlapConfig, ratTrunc, PB7200_TEMP_LSB]
    rw [tempToRaw, h]
    decide
  have hutp : int16Bits (tempToRaw overlapConfig.underTempThreshold) = 0 := by
    have h : ratTrunc (overlapConfig.underTempThreshold / PB7200_TEMP_LSB) = 0 := by
      norm_num [overlapConfig, ratTrunc, PB7200_TEMP_LSB]
    rw [tempToRaw, h]
    decide
  have h60 : readByte (setProtectionConfig (fun _ => 0) overlapConfig)
      PB7200_REG_CONFIG_OVP = 16 := by
    simp only [setProtectionConfig, hovp, huvp, hocp, hotp, hutp]
    decide
  have h61 : readByte (setProtectionConfig (fun _ => 0) overlapConfig)
      (PB7200_REG_CONFIG_OVP + 1) = 11 := by
    simp only [setProtectionConfig, hovp, huvp, hocp, hotp, hutp]
    decide
  have hval : (getProtectionConfig (setProtectionConfig (fun _ => 0) overlapConfig)
      overlapConfig).overVoltageThreshold = 4107/1000 := by
    simp only [getProtectionConfig]
    rw [h60, h61]
    norm_num [rawToVoltage, word, PB7200_VOLTAGE_LSB]
  refine ⟨rfl, rfl, rfl, rfl, hval, ?_⟩
  rw [hval]
  have hdiff : (4107/1000 : ℚ) - overlapConfig.overVoltageThreshold = -(93/1000) := by
    norm_num [overlapConfig]
  rw [hdiff, abs_neg, abs_of_nonneg (by norm_num)]
  norm_num [PB7200_VOLTAGE_LSB]

end PB7200
